import Mathlib

/-!
Shallow embedding of `src/utils/dateTime.ts` (a dayjs-based `DateTime`
wrapper class) and proofs about its operations.

Modelling conventions:
* A JS `Date` holds a time value that is either an integer count of
  milliseconds since the Unix epoch or NaN ("Invalid Date").  We model the
  time value as `Option Int` (`none` = Invalid Date); JS NaN propagation
  through date arithmetic becomes `Option` propagation.
* The process-wide configuration of the source file is the fixed zone
  Asia/Tokyo (UTC+9, no daylight saving) and locale ja-JP.  The zone-local
  wall clock reading of an instant `t` is derived from `t + tokyoOffsetMs`.
* Calendar conversions (day number ⇄ civil year/month/day) implement the
  proleptic Gregorian calendar used by JS `Date`/dayjs, written as a
  composition of small Euclidean-division stages so that each stage has a
  provable specification.  `/` and `%` on `Int` are Euclidean (= floor,
  for the positive literal divisors used here).
* Instants are unbounded integers; the finite range of JS `Date`
  (±8.64e15 ms) is not modelled.
-/

def msPerDay : Int := 86400000

def msPerHour : Int := 3600000

def msPerMinute : Int := 60000

def tokyoOffsetMs : Int := 32400000

/-- Is `y` a Gregorian leap year? -/
def isLeapYear (y : Int) : Prop :=
  y % 4 = 0 ∧ (y % 100 ≠ 0 ∨ y % 400 = 0)

instance (y : Int) : Decidable (isLeapYear y) := by
  unfold isLeapYear; infer_instance

/-- Number of days in month `m` (1–12) of year `y`. -/
def daysInMonth (y m : Int) : Int :=
  if m = 2 then (if isLeapYear y then 29 else 28)
  else if m = 4 ∨ m = 6 ∨ m = 9 ∨ m = 11 then 30 else 31

/-- Era/day-of-era split of a March-based day count
(one era = 400 years = 146097 days). -/
def eraSplit (zs : Int) : Int × Int :=
  (zs / 146097, zs % 146097)

/-- Year-of-era (0..399) and day-of-year (March-based, 0..365) from a
day-of-era, by peeling centuries, 4-year blocks and years, clamping the
century and year indices at the long last slot of each cycle. -/
def yoeSplit (doe : Int) : Int × Int :=
  let q100 := doe / 36524
  let n100 := if 3 < q100 then 3 else q100
  let r100 := doe - 36524 * n100
  let n4 := r100 / 1461
  let r4 := r100 - 1461 * n4
  let q1 := r4 / 365
  let n1 := if 3 < q1 then 3 else q1
  (100 * n100 + 4 * n4 + n1, r4 - 365 * n1)

/-- March-based month index (0 = March .. 11 = February) and day of month
from a March-based day-of-year. -/
def mdFromDoy (doy : Int) : Int × Int :=
  let mp := (5 * doy + 2) / 153
  (mp, doy - (153 * mp + 2) / 5 + 1)

/-- March-based day-of-year from month index and day of month. -/
def doyFromMd (mp d : Int) : Int :=
  (153 * mp + 2) / 5 + d - 1

/-- Days preceding year-of-era `yoe` within its era (March-based). -/
def doeOfYoe (yoe : Int) : Int :=
  365 * yoe + yoe / 4 - yoe / 100

/-- Length of the March-based month `mp` (February counted with 29). -/
def monthBoundMp (mp : Int) : Int :=
  if mp = 1 ∨ mp = 3 ∨ mp = 6 ∨ mp = 8 then 30 else if mp = 11 then 29 else 31

/-- Civil Gregorian date (year, month 1–12, day) of a day number counted
from 1970-01-01. -/
def civilFromDays (z : Int) : Int × Int × Int :=
  let era := (eraSplit (z + 719468)).1
  let doe := (eraSplit (z + 719468)).2
  let yoe := (yoeSplit doe).1
  let doy := (yoeSplit doe).2
  let mp := (mdFromDoy doy).1
  let d := (mdFromDoy doy).2
  let m := if mp < 10 then mp + 3 else mp - 9
  let yy := yoe + era * 400
  (if m ≤ 2 then yy + 1 else yy, m, d)

/-- Day number (from 1970-01-01) of a civil Gregorian date. -/
def daysFromCivil (y m d : Int) : Int :=
  let ys := if m ≤ 2 then y - 1 else y
  (ys / 400) * 146097 + (doeOfYoe (ys % 400) + doyFromMd (if 2 < m then m - 3 else m + 9) d)
    - 719468

example : civilFromDays 0 = (1970, 1, 1) := by decide
example : civilFromDays 19783 = (2024, 3, 1) := by decide
example : civilFromDays 11016 = (2000, 2, 29) := by decide
example : civilFromDays 11017 = (2000, 3, 1) := by decide
example : daysFromCivil 2024 3 1 = 19783 := by decide
example : daysFromCivil 1970 1 1 = 0 := by decide

theorem eraSplit_spec (e r : Int) (h1 : 0 ≤ r) (h2 : r < 146097) :
    eraSplit (e * 146097 + r) = (e, r) := by
  unfold eraSplit
  refine Prod.ext ?_ ?_ <;> dsimp only <;> omega

theorem yoeSplit_spec (a b c doy : Int) (ha1 : 0 ≤ a) (ha2 : a ≤ 3)
    (hb1 : 0 ≤ b) (hb2 : b ≤ 24) (hc1 : 0 ≤ c) (hc2 : c ≤ 3) (hd1 : 0 ≤ doy)
    (hd2 : doy ≤ 364 ∨ (doy = 365 ∧ c = 3 ∧ (b ≠ 24 ∨ a = 3))) :
    yoeSplit (36524 * a + 1461 * b + 365 * c + doy) = (100 * a + 4 * b + c, doy) := by
  unfold yoeSplit
  dsimp only
  have h100 : (if 3 < (36524 * a + 1461 * b + 365 * c + doy) / 36524 then 3
      else (36524 * a + 1461 * b + 365 * c + doy) / 36524) = a := by
    split <;> omega
  rw [h100]
  have hr100 : 36524 * a + 1461 * b + 365 * c + doy - 36524 * a
      = 1461 * b + 365 * c + doy := by ring
  rw [hr100]
  have h4 : (1461 * b + 365 * c + doy) / 1461 = b := by omega
  rw [h4]
  have hr4 : 1461 * b + 365 * c + doy - 1461 * b = 365 * c + doy := by ring
  rw [hr4]
  have h1 : (if 3 < (365 * c + doy) / 365 then 3 else (365 * c + doy) / 365) = c := by
    split <;> omega
  rw [h1]
  refine Prod.ext ?_ ?_ <;> dsimp only <;> omega

theorem doeOfYoe_decomp (yoe : Int) (h1 : 0 ≤ yoe) (h2 : yoe ≤ 399) :
    doeOfYoe yoe = 36524 * (yoe / 100) + 1461 * ((yoe % 100) / 4)
      + 365 * ((yoe % 100) % 4) := by
  unfold doeOfYoe
  omega

theorem md_roundtrip (mp d : Int) (h1 : 0 ≤ mp) (h2 : mp ≤ 11) (h3 : 1 ≤ d)
    (h4 : d ≤ monthBoundMp mp) :
    mdFromDoy (doyFromMd mp d) = (mp, d) := by
  unfold mdFromDoy doyFromMd
  unfold monthBoundMp at h4
  split_ifs at h4
  all_goals (interval_cases mp <;> refine Prod.ext ?_ ?_ <;> dsimp only <;> omega)

theorem doyFromMd_bounds (mp d : Int) (h1 : 0 ≤ mp) (h2 : mp ≤ 11) (h3 : 1 ≤ d)
    (h4 : d ≤ monthBoundMp mp) :
    0 ≤ doyFromMd mp d ∧ doyFromMd mp d ≤ 365 ∧
      (doyFromMd mp d = 365 → mp = 11 ∧ d = 29) := by
  unfold doyFromMd
  unfold monthBoundMp at h4
  split_ifs at h4
  all_goals (interval_cases mp <;> omega)

theorem shifted_roundtrip (era yoe mp d : Int)
    (hy1 : 0 ≤ yoe) (hy2 : yoe ≤ 399) (hm1 : 0 ≤ mp) (hm2 : mp ≤ 11)
    (hd1 : 1 ≤ d) (hd2 : d ≤ monthBoundMp mp)
    (hleap : mp = 11 → d = 29 → yoe % 4 = 3 ∧ (yoe % 100 ≠ 99 ∨ yoe = 399)) :
    eraSplit (era * 146097 + (doeOfYoe yoe + doyFromMd mp d))
      = (era, doeOfYoe yoe + doyFromMd mp d) ∧
    yoeSplit (doeOfYoe yoe + doyFromMd mp d) = (yoe, doyFromMd mp d) ∧
    mdFromDoy (doyFromMd mp d) = (mp, d) := by
  obtain ⟨hb1, hb2, hb3⟩ := doyFromMd_bounds mp d hm1 hm2 hd1 hd2
  have hdec := doeOfYoe_decomp yoe hy1 hy2
  have hleap2 : doyFromMd mp d ≤ 364 ∨ (doyFromMd mp d = 365 ∧ (yoe % 100) % 4 = 3 ∧
      ((yoe % 100) / 4 ≠ 24 ∨ yoe / 100 = 3)) := by
    rcases eq_or_ne (doyFromMd mp d) 365 with h365 | h365
    · obtain ⟨hmp11, hd29⟩ := hb3 h365
      obtain ⟨hl1, hl2⟩ := hleap hmp11 hd29
      right
      omega
    · left; omega
  have hsp := yoeSplit_spec (yoe / 100) ((yoe % 100) / 4) ((yoe % 100) % 4) (doyFromMd mp d)
    (by omega) (by omega) (by omega) (by omega) (by omega) (by omega) (by omega) hleap2
  have harg : 36524 * (yoe / 100) + 1461 * ((yoe % 100) / 4) + 365 * ((yoe % 100) % 4)
      + doyFromMd mp d = doeOfYoe yoe + doyFromMd mp d := by
    unfold doeOfYoe
    omega
  rw [harg] at hsp
  have hyoe : (100 * (yoe / 100) + 4 * ((yoe % 100) / 4) + (yoe % 100) % 4, doyFromMd mp d)
      = (yoe, doyFromMd mp d) := by
    refine Prod.ext ?_ rfl
    dsimp only
    omega
  rw [hyoe] at hsp
  refine ⟨?_, hsp, md_roundtrip mp d hm1 hm2 hd1 hd2⟩
  refine eraSplit_spec era (doeOfYoe yoe + doyFromMd mp d) ?_ ?_ <;>
    · unfold doeOfYoe doyFromMd at *
      omega

theorem civil_roundtrip (y m d : Int) (h1 : 1 ≤ m) (h2 : m ≤ 12)
    (h3 : 1 ≤ d) (h4 : d ≤ daysInMonth y m) :
    civilFromDays (daysFromCivil y m d) = (y, m, d) := by
  unfold civilFromDays daysFromCivil
  dsimp only
  generalize hys : (if m ≤ 2 then y - 1 else y) = ys
  generalize hmp : (if 2 < m then m - 3 else m + 9) = mp
  have hmp1 : 0 ≤ mp := by rw [← hmp]; split <;> omega
  have hmp2 : mp ≤ 11 := by rw [← hmp]; split <;> omega
  have hub : d ≤ monthBoundMp mp := by
    rw [← hmp]
    unfold daysInMonth isLeapYear at h4
    unfold monthBoundMp
    split_ifs at h4 ⊢ <;> omega
  have hleap : mp = 11 → d = 29 →
      (ys % 400) % 4 = 3 ∧ ((ys % 400) % 100 ≠ 99 ∨ ys % 400 = 399) := by
    intro hmp11 hd29
    have hm2 : m = 2 := by omega
    have hysv : ys = y - 1 := by rw [← hys]; simp [hm2]
    unfold daysInMonth isLeapYear at h4
    rw [hm2] at h4
    simp only [reduceIte] at h4
    split_ifs at h4 <;> omega
  obtain ⟨he, hyo, hmd⟩ := shifted_roundtrip (ys / 400) (ys % 400) mp d
    (by omega) (by omega) hmp1 hmp2 h3 hub hleap
  have harg : ys / 400 * 146097 + (doeOfYoe (ys % 400) + doyFromMd mp d) - 719468 + 719468
      = ys / 400 * 146097 + (doeOfYoe (ys % 400) + doyFromMd mp d) := by ring
  rw [harg, he]
  dsimp only
  rw [hyo]
  dsimp only
  rw [hmd]
  dsimp only
  refine Prod.ext ?_ (Prod.ext ?_ ?_) <;> dsimp only <;> split_ifs <;> omega

theorem civilFromDays_bounds (z : Int) :
    1 ≤ (civilFromDays z).2.1 ∧ (civilFromDays z).2.1 ≤ 12 ∧
    1 ≤ (civilFromDays z).2.2 ∧ (civilFromDays z).2.2 ≤ 31 := by
  unfold civilFromDays eraSplit
  dsimp only
  generalize hdoe : (z + 719468) % 146097 = doe
  have hdoe1 : 0 ≤ doe := by omega
  have hdoe2 : doe ≤ 146096 := by omega
  have hdoy : 0 ≤ (yoeSplit doe).2 ∧ (yoeSplit doe).2 ≤ 365 := by
    unfold yoeSplit
    dsimp only
    generalize hq : doe / 36524 = q100
    have hqb : 0 ≤ q100 ∧ q100 ≤ 4 := by omega
    generalize hn : (if 3 < q100 then 3 else q100) = n100
    have hnb : 0 ≤ n100 ∧ n100 ≤ 3 ∧ (n100 = q100 ∨ (q100 = 4 ∧ n100 = 3)) := by
      rw [← hn]; split <;> omega
    have hrb : 0 ≤ doe - 36524 * n100 ∧ doe - 36524 * n100 ≤ 36524 := by omega
    generalize hr : doe - 36524 * n100 = r100 at *
    generalize hn4 : r100 / 1461 = n4
    have hr4b : 0 ≤ r100 - 1461 * n4 ∧ r100 - 1461 * n4 ≤ 1460 := by omega
    generalize hr4 : r100 - 1461 * n4 = r4 at *
    generalize hq1 : r4 / 365 = q1
    have hq1b : 0 ≤ q1 ∧ q1 ≤ 4 := by omega
    split <;> omega
  generalize hdoy2 : (yoeSplit doe).2 = doy at hdoy
  unfold mdFromDoy
  dsimp only
  generalize hmp : (5 * doy + 2) / 153 = mp
  have hmpb : 0 ≤ mp ∧ mp ≤ 11 := by omega
  split_ifs <;> omega

/-- Day number (from 1970-01-01) of the Asia/Tokyo calendar day containing
instant `t` (ms since epoch). -/
def localDays (t : Int) : Int := (t + tokyoOffsetMs) / msPerDay

/-- Milliseconds elapsed since Tokyo-local midnight at instant `t`. -/
def localTod (t : Int) : Int := (t + tokyoOffsetMs) % msPerDay

/-- Tokyo-local civil date (year, month, day) of instant `t`. -/
def localCivil (t : Int) : Int × Int × Int := civilFromDays (localDays t)

/-- Tokyo-local hour (0–23) of instant `t`. -/
def localHour (t : Int) : Int := localTod t / msPerHour

/-- Tokyo-local minute (0–59) of instant `t`. -/
def localMinute (t : Int) : Int := localTod t % msPerHour / msPerMinute

/-- Tokyo-local second (0–59) of instant `t`. -/
def localSecond (t : Int) : Int := localTod t % msPerMinute / 1000

/-- Decimal digits of a natural number, most significant first (fuel-based
structural recursion so that the kernel can evaluate it; `n + 1` units of
fuel always suffice since the digit count of `n` is at most `n + 1`). -/
def natDigitsAux : Nat → Nat → List Char
  | 0, _ => []
  | fuel + 1, n =>
    if n < 10 then [Nat.digitChar n]
    else natDigitsAux fuel (n / 10) ++ [Nat.digitChar (n % 10)]

def natDigits (n : Nat) : List Char := natDigitsAux (n + 1) n

/-- Decimal rendering of a natural number (JS `String(n)`). -/
def natToString (n : Nat) : String := String.mk (natDigits n)

/-- Decimal digits of an integer, with a leading minus sign when
negative. -/
def intDigits (i : Int) : List Char :=
  if i < 0 then '-' :: natDigits (-i).toNat else natDigits i.toNat

/-- Decimal rendering of an integer (JS `String(i)`). -/
def intToString (i : Int) : String := String.mk (intDigits i)

/-- dayjs two-digit zero padding (`MM`, `DD`, `HH`, `mm`, `ss` tokens). -/
def pad2i (i : Int) : String :=
  if 0 ≤ i ∧ i < 10 then "0" ++ intToString i else intToString i

/-- dayjs four-digit zero padding (`YYYY` token; plain rendering outside
0–9999, which the claims never exercise). -/
def pad4i (i : Int) : String :=
  if 0 ≤ i ∧ i < 10 then "000" ++ intToString i
  else if 0 ≤ i ∧ i < 100 then "00" ++ intToString i
  else if 0 ≤ i ∧ i < 1000 then "0" ++ intToString i
  else intToString i

example : natToString 2024 = "2024" := by decide
example : pad2i 3 = "03" := by decide
example : pad2i 30 = "30" := by decide
example : pad4i 2024 = "2024" := by decide

/-- JS `String.prototype.split` on a character class: splits `l` at every
character satisfying `p`, keeping empty fragments (so a leading, trailing
or doubled separator yields empty strings, as in JS). -/
def splitP (p : Char → Bool) : List Char → List (List Char)
  | [] => [[]]
  | c :: cs =>
    match splitP p cs with
    | [] => [[]]
    | g :: gs => if p c then [] :: g :: gs else (c :: g) :: gs

example : (splitP (fun c => c == ' ') "a bc".data).map String.mk = ["a", "bc"] := by decide
example : (splitP (fun c => c == ':') "9:05:30".data).map String.mk = ["9", "05", "30"] := by decide

/-- Digits-only numeral parse: `some` of the decimal value when `l` is a
nonempty list of ASCII digits, else `none`. -/
def digitsToNat (l : List Char) : Option Nat :=
  if l ≠ [] ∧ l.all Char.isDigit then
    some (l.foldl (fun a c => a * 10 + (c.toNat - 48)) 0)
  else none

/-- Parse a `YYYY/MM/DD` or `YYYY-MM-DD` fragment (4-digit year, in-range
month and day) to a civil date. -/
def parseYMDPart (l : List Char) : Option (Int × Int × Int) :=
  match splitP (fun c => c == '/' || c == '-') l with
  | [ys, ms, ds] =>
    match digitsToNat ys, digitsToNat ms, digitsToNat ds with
    | some y, some mo, some d =>
      if ys.length = 4 ∧ ms.length ≤ 2 ∧ ds.length ≤ 2 ∧ 1 ≤ mo ∧ mo ≤ 12 ∧ 1 ≤ d ∧
          (d : Int) ≤ daysInMonth (y : Int) (mo : Int) then
        some ((y : Int), (mo : Int), (d : Int))
      else none
    | _, _, _ => none
  | _ => none

/-- Parse an `HH:mm` or `HH:mm:ss` fragment to (hour, minute, second). -/
def parseHMSPart (l : List Char) : Option (Int × Int × Int) :=
  match splitP (fun c => c == ':') l with
  | [hs, ms] =>
    match digitsToNat hs, digitsToNat ms with
    | some h, some mi =>
      if hs.length ≤ 2 ∧ ms.length = 2 ∧ h ≤ 23 ∧ mi ≤ 59 then
        some ((h : Int), (mi : Int), 0)
      else none
    | _, _ => none
  | [hs, ms, ss] =>
    match digitsToNat hs, digitsToNat ms, digitsToNat ss with
    | some h, some mi, some se =>
      if hs.length ≤ 2 ∧ ms.length = 2 ∧ ss.length = 2 ∧ h ≤ 23 ∧ mi ≤ 59 ∧ se ≤ 59 then
        some ((h : Int), (mi : Int), (se : Int))
      else none
    | _, _, _ => none
  | _ => none

/-- Model of date-string parsing: the instant (ms since epoch) denoted by a
`YYYY/MM/DD[ HH:mm[:ss]]` or `YYYY-MM-DD[ HH:mm[:ss]]` string read as an
Asia/Tokyo wall-clock time, `none` when the string is not of that shape
(JS Invalid Date).  This models both `new Date(string)` applied to the
normalized (slash-separated) strings the source feeds it and dayjs's own
string parser applied to raw strings: on this fragment, and in this fixed
zone, the two engines agree (both read the string as local wall-clock
time with zero milliseconds). -/
def parseDate (s : String) : Option Int :=
  match splitP (fun c => c == ' ') s.data with
  | [dl] =>
    (parseYMDPart dl).map
      (fun c => daysFromCivil c.1 c.2.1 c.2.2 * msPerDay - tokyoOffsetMs)
  | [dl, tl] =>
    match parseYMDPart dl, parseHMSPart tl with
    | some c, some hms =>
      some (daysFromCivil c.1 c.2.1 c.2.2 * msPerDay
        + hms.1 * msPerHour + hms.2.1 * msPerMinute + hms.2.2 * 1000 - tokyoOffsetMs)
    | _, _ => none
  | _ => none

example : parseDate "2024/03/01" = some 1709218800000 := by decide
example : parseDate "2024-03-01" = some 1709218800000 := by decide
example : parseDate "2024-03-01 10:15:00" = some 1709255700000 := by decide
example : parseDate "hello" = none := by decide
example : parseDate "" = none := by decide

/-- The wrapped state of the `DateTime` class: its private `#date` field
(a JS `Date` time value, `none` = Invalid Date). -/
structure DateTime where
  date : Option Int
deriving DecidableEq

/-- The constructor's declared input type `Date | string | null | undefined`
(`null` and `undefined` take the same branch in the source and are merged). -/
inductive DateInput where
  | date (d : Option Int)
  | str (s : String)
  | null
deriving DecidableEq

namespace DateTime

/-- `formatSafariSupport`: `v.toString().replace(dashGlobalRegex, "/")` —
replaces every `-` character by `/`. -/
def formatSafariSupport (v : String) : String :=
  String.mk (v.data.map (fun c => if c = '-' then '/' else c))

/-- `isDate`: `!isNaN(new Date(v).getTime())` — whether the string parses
to a valid instant.  (The source also accepts numbers; only the string
case is reachable from the class and is modelled.) -/
def isDate (v : String) : Bool := (parseDate v).isSome

/-- The class constructor.  `now` is the ambient clock instant read by
`new Date()` when the fallback branches run. -/
def construct (now : Int) : DateInput → DateTime
  | .date d => ⟨d⟩
  | .str s =>
    let safariSupportDate := formatSafariSupport s
    if isDate safariSupportDate then ⟨parseDate safariSupportDate⟩
    else ⟨some now⟩
  | .null => ⟨some now⟩

/-- `toJpString`: `` `${getFullYear()}年${getMonth() + 1}月${getDate()}日` ``
(unpadded, Tokyo-local reading; an Invalid Date renders its NaN fields). -/
def toJpString (v : DateTime) : String :=
  match v.date with
  | none => "NaN年NaN月NaN日"
  | some t =>
    intToString (localCivil t).1 ++ "年" ++ intToString (localCivil t).2.1 ++ "月"
      ++ intToString (localCivil t).2.2 ++ "日"

/-- The Sunday-first weekday table of `toJpStringWithWeek`. -/
def week : List String := ["日", "月", "火", "水", "木", "金", "土"]

/-- JS `Date.prototype.getDay` (0 = Sunday .. 6 = Saturday), `none` for an
Invalid Date (NaN);  1970-01-01 was a Thursday (index 4). -/
def jsGetDay (d : Option Int) : Option Nat :=
  match d with
  | none => none
  | some t => some (((localDays t + 4) % 7).toNat)

/-- `toJpStringWithWeek`: appends `（曜日）` from the 7-entry table; if the
table lookup yields `undefined` (NaN index of an Invalid Date), returns
the placeholder `ー`. -/
def toJpStringWithWeek (v : DateTime) : String :=
  let dayOfWeek := match jsGetDay v.date with
    | none => none
    | some i => week.get? i
  match dayOfWeek with
  | none => "ー"
  | some w => v.toJpString ++ "（" ++ w ++ "）"

/-- `Date.prototype.toLocaleString("ja-JP")`: `YYYY/M/D H:MM:SS` (month,
day and hour unpadded, minute and second padded), `"Invalid Date"` for an
invalid value. -/
def jpLocaleString (d : Option Int) : String :=
  match d with
  | none => "Invalid Date"
  | some t =>
    intToString (localCivil t).1 ++ "/" ++ intToString (localCivil t).2.1 ++ "/"
      ++ intToString (localCivil t).2.2 ++ " " ++ intToString (localHour t) ++ ":"
      ++ pad2i (localMinute t) ++ ":" ++ pad2i (localSecond t)

/-- The regex test `^[0-9]{1,2}:[0-9]{2}:[0-9]{2}$` of `toOnlyTime`. -/
def hmsPattern (l : List Char) : Bool :=
  match splitP (fun c => c == ':') l with
  | [a, b, c] =>
    (a.length = 1 || a.length = 2) && a.all Char.isDigit
      && b.length = 2 && b.all Char.isDigit && c.length = 2 && c.all Char.isDigit
  | _ => false

/-- `toOnlyTime`: splits the ja-JP locale string on a space, takes entry 1,
strips seconds when the `hh:mm:ss` pattern matches and zero-pads a 1-digit
hour.  Reading `.match`/`.length` of an `undefined` array entry would
throw a TypeError in JS; those reads are modelled as `Except.error`. -/
def toOnlyTime (v : DateTime) : Except String String :=
  let localeString := (splitP (fun c => c == ' ') (jpLocaleString v.date).data).map String.mk
  match localeString.get? 1 with
  | none => Except.error "TypeError: undefined entry"
  | some t1 =>
    if hmsPattern t1.data then
      match (splitP (fun c => c == ':') t1.data).get? 0,
          (splitP (fun c => c == ':') t1.data).get? 1 with
      | some hh, some mm =>
        Except.ok (if hh.length = 1 then "0" ++ String.mk hh ++ ":" ++ String.mk mm
          else String.mk hh ++ ":" ++ String.mk mm)
      | _, _ => Except.error "TypeError: undefined entry"
    else Except.ok t1

/-- dayjs `format("YYYY-MM-DD")` body for a valid instant. -/
def isoDateStringOfCivil (y m d : Int) : String :=
  pad4i y ++ "-" ++ pad2i m ++ "-" ++ pad2i d

/-- dayjs `.tz().format("YYYY-MM-DD")` (an invalid value formats as
`"Invalid Date"`). -/
def dayjsFormatYMD (d : Option Int) : String :=
  match d with
  | none => "Invalid Date"
  | some t => isoDateStringOfCivil (localCivil t).1 (localCivil t).2.1 (localCivil t).2.2

/-- dayjs `.tz().format("YYYY-MM-DD HH:mm:ss")`. -/
def dayjsFormatYMDHMS (d : Option Int) : String :=
  match d with
  | none => "Invalid Date"
  | some t =>
    dayjsFormatYMD (some t) ++ " " ++ pad2i (localHour t) ++ ":" ++ pad2i (localMinute t)
      ++ ":" ++ pad2i (localSecond t)

/-- dayjs `.tz().format("YYYY-MM-DD HH:mm")`. -/
def dayjsFormatYMDHM (d : Option Int) : String :=
  match d with
  | none => "Invalid Date"
  | some t =>
    dayjsFormatYMD (some t) ++ " " ++ pad2i (localHour t) ++ ":" ++ pad2i (localMinute t)

/-- `toDateString`: `dayjs(#date).tz().format("YYYY-MM-DD")`. -/
def toDateString (v : DateTime) : String := dayjsFormatYMD v.date

/-- `toDateJpString`: `dayjs(#date).tz().format("YYYY年MM月DD日")`. -/
def toDateJpString (v : DateTime) : String :=
  match v.date with
  | none => "Invalid Date"
  | some t =>
    pad4i (localCivil t).1 ++ "年" ++ pad2i (localCivil t).2.1 ++ "月"
      ++ pad2i (localCivil t).2.2 ++ "日"

/-- `toDateStringWithTime`: `dayjs(#date).tz().format("YYYY-MM-DD HH:mm")`. -/
def toDateStringWithTime (v : DateTime) : String := dayjsFormatYMDHM v.date

/-- `toDateTimeString`: `dayjs(#date).tz().format("YYYY-MM-DD HH:mm:ss")`. -/
def toDateTimeString (v : DateTime) : String := dayjsFormatYMDHMS v.date

/-- `toDateName`: `dayjs(#date).tz().format("YYYYMMDD_HHmmss")`. -/
def toDateName (v : DateTime) : String :=
  match v.date with
  | none => "Invalid Date"
  | some t =>
    pad4i (localCivil t).1 ++ pad2i (localCivil t).2.1 ++ pad2i (localCivil t).2.2
      ++ "_" ++ pad2i (localHour t) ++ pad2i (localMinute t) ++ pad2i (localSecond t)

/-- dayjs `.add(n, "d")` on a possibly-invalid value.  Asia/Tokyo has a
fixed UTC+9 offset (no daylight saving), so adding `n` calendar days in
that zone is exactly adding `n * 86400000` ms; an invalid value stays
invalid (NaN propagation). -/
def dayjsTzAddDays (d : Option Int) (n : Int) : Option Int :=
  d.map (fun t => t + n * msPerDay)

/-- dayjs `.subtract(n, "d")` (same remark as `dayjsTzAddDays`). -/
def dayjsTzSubtractDays (d : Option Int) (n : Int) : Option Int :=
  d.map (fun t => t - n * msPerDay)

/-- `afterDay`: `dayjs(#date).tz().add(day, "d").format("YYYY-MM-DD")`. -/
def afterDay (v : DateTime) (day : Int) : String :=
  dayjsFormatYMD (dayjsTzAddDays v.date day)

/-- `addDate`: `new DateTime(dayjs(#date).tz().add(day, "d").toDate())`.
The inner constructor receives a `Date` input, whose branch stores the
value verbatim and never reads the clock, so the `now` argument passed to
`construct` is irrelevant (`construct_date_verbatim`). -/
def addDate (v : DateTime) (day : Int) : DateTime :=
  construct 0 (DateInput.date (dayjsTzAddDays v.date day))

/-- `subtractDate`: `new DateTime(dayjs(#date).tz().subtract(day, "d").toDate())`. -/
def subtractDate (v : DateTime) (day : Int) : DateTime :=
  construct 0 (DateInput.date (dayjsTzSubtractDays v.date day))

/-- dayjs `.add(n, "y")`: set the year to `year + n`, clamping the day of
month to the target month's length (Feb 29 + 1y = Feb 28), keeping the
time of day. -/
def dayjsAddYears (t n : Int) : Int :=
  let c := localCivil t
  let dd := min c.2.2 (daysInMonth (c.1 + n) c.2.1)
  daysFromCivil (c.1 + n) c.2.1 dd * msPerDay + localTod t - tokyoOffsetMs

/-- dayjs `.startOf("year")`: local midnight of January 1st of the value's
year. -/
def dayjsStartOfYear (t : Int) : Int :=
  daysFromCivil (localCivil t).1 1 1 * msPerDay - tokyoOffsetMs

/-- `yearsLaterNewYearsDate`:
`dayjs().add(year, "y").startOf("year").format("YYYY-MM-DD")` — note the
anchor is `dayjs()` (the ambient clock `now`), not the wrapped `#date`. -/
def yearsLaterNewYearsDate (v : DateTime) (now year : Int) : String :=
  dayjsFormatYMD (some (dayjsStartOfYear (dayjsAddYears now year)))

/-- `isBefore`: `dayjs(#date).isBefore(date)` — strict `<` on the two time
values, `false` whenever either is NaN; the argument string is parsed raw
(no separator normalization). -/
def isBefore (v : DateTime) (date : String) : Bool :=
  match v.date, parseDate date with
  | some a, some b => decide (a < b)
  | _, _ => false

/-- dayjs `absFloor(x / 86400000)`: truncation toward zero of the exact
ratio (`Math.floor` for nonnegative `x`, `Math.ceil` for negative). -/
def absFloorByDay (x : Int) : Int :=
  if x < 0 then -((-x) / msPerDay) else x / msPerDay

/-- `DaysDiff`: `dayjs(#date).diff(date, "day")` — the time-value
difference `#date - date` in ms, truncated toward zero to whole days
(`none` = the NaN a JS caller receives when either value is invalid). -/
def DaysDiff (v : DateTime) (date : String) : Option Int :=
  match v.date, parseDate date with
  | some a, some b => some (absFloorByDay (a - b))
  | _, _ => none

/-- `isSameDate`: `dayjs(#date).isSame(new DateTime(date).#date)` — the
argument is constructed through the class constructor (separator rewrite
and fail-open default included), then compared for millisecond equality;
`false` whenever either time value is NaN.  (The source's declared
argument type is `string | Date`; `DateInput.null` is accepted by the
model exactly as the constructor would accept it.) -/
def isSameDate (now : Int) (v : DateTime) (date : DateInput) : Bool :=
  match v.date, (construct now date).date with
  | some a, some b => decide (a = b)
  | _, _ => false

/-- dayjs `.hour(i).minute(0).second(0)`: sets the Tokyo-local hour to `i`
and zeroes minute and second, keeping the date and the sub-second
milliseconds. -/
def jsSetHMS0 (t i : Int) : Int :=
  localDays t * msPerDay - tokyoOffsetMs + i * msPerHour + localTod t % 1000

/-- `美容室入場時間`: for each hour 8..19 of the day denoted by `date`
(normalized through the constructor; fail-open to `now`'s day), emits the
`HH:00:00` and `HH:30:00` stamps in `YYYY-MM-DD HH:mm:ss` format. -/
def «美容室入場時間» (v : DateTime) (now : Int) (date : String) : List String :=
  let base := (construct now (DateInput.str date)).date
  (List.range' 8 12).bind (fun i =>
    let hourD := base.map (fun t => jsSetHMS0 t (i : Int))
    [dayjsFormatYMDHMS hourD, dayjsFormatYMDHMS (hourD.map (fun t => t + 30 * msPerMinute))])

end DateTime

example : (DateTime.construct 0 (DateInput.str "2024-03-01")).date = some 1709218800000 := by
  decide
example : (DateTime.construct 77 (DateInput.str "hello")).date = some 77 := by decide
example : (DateTime.construct 77 DateInput.null).date = some 77 := by decide
example : DateTime.toDateString ⟨some 1709255700000⟩ = "2024-03-01" := by decide
example : DateTime.toDateTimeString ⟨some 1709255700000⟩ = "2024-03-01 10:15:00" := by decide
example : DateTime.toJpString ⟨some 1709255700000⟩ = "2024年3月1日" := by decide
example : DateTime.toJpStringWithWeek ⟨some 1709255700000⟩ = "2024年3月1日（金）" := by decide
example : DateTime.toJpStringWithWeek ⟨none⟩ = "ー" := by decide
example : DateTime.toOnlyTime ⟨some 1709255700000⟩ = Except.ok "10:15" := rfl
example : DateTime.toOnlyTime ⟨none⟩ = Except.ok "Date" := rfl

theorem formatSafariSupport_map_idem (l : List Char) :
    (l.map (fun c => if c = '-' then '/' else c)).map (fun c => if c = '-' then '/' else c)
      = l.map (fun c => if c = '-' then '/' else c) := by
  induction l with
  | nil => rfl
  | cons c cs ih =>
    simp only [List.map_cons, ih, List.cons.injEq, and_true]
    by_cases hc : c = '-' <;> simp [hc]

theorem formatSafariSupport_idem (s : String) :
    DateTime.formatSafariSupport (DateTime.formatSafariSupport s)
      = DateTime.formatSafariSupport s := by
  unfold DateTime.formatSafariSupport
  exact congrArg String.mk (formatSafariSupport_map_idem s.data)

/-- The `Date` branch of the constructor stores its input verbatim and
never reads the ambient clock. -/
theorem construct_date_verbatim (now : Int) (d : Option Int) :
    DateTime.construct now (DateInput.date d) = ⟨d⟩ := rfl

/-- Constructing from a string is invariant under pre-normalizing the
separators, because the constructor applies the (idempotent) separator
rewrite itself. -/
theorem construct_str_slash (now : Int) (s : String) :
    DateTime.construct now (DateInput.str s)
      = DateTime.construct now (DateInput.str (DateTime.formatSafariSupport s)) := by
  simp only [DateTime.construct]
  rw [formatSafariSupport_idem]

/-- When the normalized string parses, the constructor stores the parsed
instant. -/
theorem construct_str_of_parse (now : Int) (s : String) (t : Int)
    (h : parseDate (DateTime.formatSafariSupport s) = some t) :
    DateTime.construct now (DateInput.str s) = ⟨some t⟩ := by
  simp only [DateTime.construct, DateTime.isDate, h]
  rfl

/-- A string input always produces a valid instant (parsed or fail-open
default). -/
theorem construct_str_isSome (now : Int) (s : String) :
    ∃ t, (DateTime.construct now (DateInput.str s)).date = some t := by
  simp only [DateTime.construct, DateTime.isDate]
  split
  case isTrue h =>
    obtain ⟨t, ht⟩ := Option.isSome_iff_exists.mp h
    exact ⟨t, by simp [ht]⟩
  case isFalse h => exact ⟨now, rfl⟩

/-- C3: For every string `s`, constructing from `s` (using `-` separators)
and from the same string with its `-` separators replaced by `/` yields the
same instant: the normalizer rewrites every `-` to `/` before parsing, and
the rewrite is idempotent. -/
theorem C3_separator_invariance (now : Int) (s : String) :
    (DateTime.construct now (DateInput.str s)).date
      = (DateTime.construct now (DateInput.str (DateTime.formatSafariSupport s))).date := by
  rw [construct_str_slash]

/-- C7: `isSameDate` returns the same boolean for a `-`-separated argument
as for the corresponding `/`-separated argument (e.g. `"2024-03-01"` vs
`"2024/03/01"`), because it constructs its argument through the class
constructor, which applies the separator normalization. -/
theorem C7_isSameDate_separator_invariance (now : Int) (v : DateTime) (s : String) :
    DateTime.isSameDate now v (DateInput.str s)
      = DateTime.isSameDate now v (DateInput.str (DateTime.formatSafariSupport s)) := by
  unfold DateTime.isSameDate
  rw [construct_str_slash]

/-- C1 (counterexample): the claim promises a valid (non-NaN) instant for
*every* constructor input, but an Invalid Date (a `Date` whose time value
is NaN) is a legal `Date` input that the constructor stores verbatim,
leaving a NaN instant. -/
theorem C1_counterexample : (DateTime.construct 0 (DateInput.date none)).date = none := rfl

/-- C1 (amended): a valid `Date` input is stored verbatim; every input
other than an invalid (NaN) `Date` yields a valid instant; a string whose
normalized form does not parse, and a null/undefined input, default to the
ambient clock instant `now`. -/
theorem C1_construct_amended (now : Int) (input : DateInput) :
    (∀ t, input = DateInput.date (some t) → (DateTime.construct now input).date = some t) ∧
    (input ≠ DateInput.date none → ∃ t, (DateTime.construct now input).date = some t) ∧
    (∀ s, input = DateInput.str s → parseDate (DateTime.formatSafariSupport s) = none →
      (DateTime.construct now input).date = some now) ∧
    (input = DateInput.null → (DateTime.construct now input).date = some now) := by
  refine ⟨?_, ?_, ?_, ?_⟩
  · rintro t rfl
    rfl
  · intro hne
    cases input with
    | date d =>
      cases d with
      | none => exact absurd rfl hne
      | some t => exact ⟨t, rfl⟩
    | str s => exact construct_str_isSome now s
    | null => exact ⟨now, rfl⟩
  · rintro s rfl hparse
    simp only [DateTime.construct, DateTime.isDate, hparse]
    rfl
  · rintro rfl
    rfl

theorem C1_witness : (DateTime.construct 5 (DateInput.str "hello")).date = some 5 :=
  (C1_construct_amended 5 (DateInput.str "hello")).2.2.1 "hello" rfl (by decide)

/-- C2 (counterexample): for the wrapped date 2024-03-01 and the later
argument date 2024-03-05, the claim predicts `+4` (argument minus
instant), but `DaysDiff` computes instant minus argument and returns
`-4`. -/
theorem C2_counterexample :
    (DateTime.construct 0 (DateInput.str "2024/03/01")).DaysDiff "2024-03-05" = some (-4) ∧
    (DateTime.construct 0 (DateInput.str "2024/03/01")).DaysDiff "2024-03-05" ≠ some 4 := by
  exact ⟨by decide, by decide⟩

/-- C2 (amended): for a valid wrapped instant `a` and a parseable argument
denoting `b`, `DaysDiff` returns the day count `q` of the difference
`a - b` — the *wrapped instant minus the argument*, truncated toward zero
(`a - b = q·86400000 + r` with the remainder `r` on the zero side), so the
result is nonnegative when the wrapped instant is later, the opposite sign
convention to the one claimed. -/
theorem C2_daysDiff_amended (v : DateTime) (s : String) (a b : Int)
    (hv : v.date = some a) (hs : parseDate s = some b) :
    ∃ q r, v.DaysDiff s = some q ∧ a - b = q * msPerDay + r
      ∧ (0 ≤ a - b → 0 ≤ r ∧ r < msPerDay ∧ 0 ≤ q)
      ∧ (a - b < 0 → -msPerDay < r ∧ r ≤ 0 ∧ q ≤ 0) := by
  refine ⟨DateTime.absFloorByDay (a - b), a - b - DateTime.absFloorByDay (a - b) * msPerDay,
    ?_, by ring, ?_, ?_⟩
  · unfold DateTime.DaysDiff
    rw [hv, hs]
  · intro hab
    unfold DateTime.absFloorByDay msPerDay at *
    split_ifs <;> omega
  · intro hab
    unfold DateTime.absFloorByDay msPerDay at *
    split_ifs <;> omega

theorem C2_witness :
    ∃ q r, (DateTime.construct 0 (DateInput.str "2024/03/05")).DaysDiff "2024-03-01" = some q
      ∧ (1709564400000 : Int) - 1709218800000 = q * msPerDay + r
      ∧ ((0 : Int) ≤ (1709564400000 : Int) - 1709218800000 → 0 ≤ r ∧ r < msPerDay ∧ 0 ≤ q)
      ∧ ((1709564400000 : Int) - 1709218800000 < 0 → -msPerDay < r ∧ r ≤ 0 ∧ q ≤ 0) :=
  C2_daysDiff_amended (DateTime.construct 0 (DateInput.str "2024/03/05")) "2024-03-01"
    1709564400000 1709218800000 (by decide) (by decide)

/-- C6: adding and then subtracting the same whole-day count restores the
exact instant (Asia/Tokyo has a fixed offset, so a calendar day is a fixed
86400000 ms), hence the same `toDateString`; an invalid value stays
invalid on both sides. -/
theorem C6_addDate_subtractDate_roundtrip (v : DateTime) (n : Int) :
    ((v.addDate n).subtractDate n).toDateString = v.toDateString := by
  obtain ⟨d⟩ := v
  cases d with
  | none => rfl
  | some t =>
    show DateTime.toDateString ⟨some (t + n * msPerDay - n * msPerDay)⟩
      = DateTime.toDateString ⟨some t⟩
    have ht : t + n * msPerDay - n * msPerDay = t := by ring
    rw [ht]

/-- C8: `isBefore` is true exactly when the wrapped instant is strictly
earlier than the instant denoted by the (raw-parsed) argument string. -/
theorem C8_isBefore (v : DateTime) (s : String) (a b : Int)
    (hv : v.date = some a) (hs : parseDate s = some b) :
    (v.isBefore s = true) ↔ a < b := by
  unfold DateTime.isBefore
  rw [hv, hs]
  simp

theorem C8_witness :
    (DateTime.construct 0 (DateInput.str "2024/03/01")).isBefore "2024-03-05" = true :=
  (C8_isBefore (DateTime.construct 0 (DateInput.str "2024/03/01")) "2024-03-05"
    1709218800000 1709564400000 (by decide) (by decide)).mpr (by decide)

/-- C10: `isSameDate` compares full instants at millisecond precision: it
is true exactly when the argument, constructed through the normalizer,
holds the very same time value as the wrapped (valid) instant — so two
distinct times on the same calendar date compare as not-same. -/
theorem C10_isSameDate_millisecond (now : Int) (v : DateTime) (arg : DateInput) (a : Int)
    (hv : v.date = some a) :
    (DateTime.isSameDate now v arg = true) ↔ (DateTime.construct now arg).date = some a := by
  unfold DateTime.isSameDate
  rw [hv]
  cases h : (DateTime.construct now arg).date with
  | none => simp
  | some b => simp [eq_comm]

theorem C10_witness :
    DateTime.isSameDate 0 (DateTime.construct 0 (DateInput.str "2024/03/01 10:00:00"))
      (DateInput.str "2024-03-01 11:00:00") = false := by
  have h := C10_isSameDate_millisecond 0
    (DateTime.construct 0 (DateInput.str "2024/03/01 10:00:00"))
    (DateInput.str "2024-03-01 11:00:00") 1709254800000 (by decide)
  rw [Bool.eq_false_iff]
  intro ht
  exact absurd (h.mp ht) (by decide)

theorem daysInMonth_ge_28 (y m : Int) : 28 ≤ daysInMonth y m := by
  unfold daysInMonth isLeapYear
  split_ifs <;> omega

theorem localTod_bounds (t : Int) : 0 ≤ localTod t ∧ localTod t < msPerDay := by
  unfold localTod msPerDay
  omega

theorem localDays_of_civil_tod (X tod : Int) (h1 : 0 ≤ tod) (h2 : tod < msPerDay) :
    localDays (X * msPerDay + tod - tokyoOffsetMs) = X := by
  unfold localDays msPerDay tokyoOffsetMs at *
  omega

theorem localCivil_addYears (now n : Int) :
    localCivil (DateTime.dayjsAddYears now n)
      = ((localCivil now).1 + n, (localCivil now).2.1,
         min (localCivil now).2.2 (daysInMonth ((localCivil now).1 + n) (localCivil now).2.1)) := by
  obtain ⟨hb1, hb2, hb3, hb4⟩ := civilFromDays_bounds (localDays now)
  have hbb1 : 1 ≤ (localCivil now).2.1 := hb1
  have hbb2 : (localCivil now).2.1 ≤ 12 := hb2
  have hbb3 : 1 ≤ (localCivil now).2.2 := hb3
  obtain ⟨ht1, ht2⟩ := localTod_bounds now
  unfold DateTime.dayjsAddYears
  dsimp only
  show localCivil (daysFromCivil ((localCivil now).1 + n) (localCivil now).2.1
      (min (localCivil now).2.2 (daysInMonth ((localCivil now).1 + n) (localCivil now).2.1))
      * msPerDay + localTod now - tokyoOffsetMs) = _
  rw [localCivil, localDays_of_civil_tod _ _ ht1 ht2]
  refine civil_roundtrip _ _ _ hbb1 hbb2 ?_ ?_
  · have := daysInMonth_ge_28 ((localCivil now).1 + n) (localCivil now).2.1
    omega
  · exact min_le_right _ _

theorem localCivil_startOfYear (t : Int) :
    localCivil (DateTime.dayjsStartOfYear t) = ((localCivil t).1, 1, 1) := by
  unfold DateTime.dayjsStartOfYear
  have hld : localDays (daysFromCivil (localCivil t).1 1 1 * msPerDay - tokyoOffsetMs)
      = daysFromCivil (localCivil t).1 1 1 := by
    unfold localDays msPerDay tokyoOffsetMs
    omega
  rw [localCivil, hld]
  refine civil_roundtrip _ 1 1 (by norm_num) (by norm_num) (by norm_num) ?_
  have := daysInMonth_ge_28 (localCivil t).1 1
  omega

/-- C5: `yearsLaterNewYearsDate(n)` returns the ISO `YYYY-MM-DD` string of
January 1st of the year `n` years after the ambient clock instant `now`
(the year of `now` plus `n`), and is independent of the instant the
receiver wraps. -/
theorem C5_yearsLaterNewYearsDate (v : DateTime) (now n : Int) :
    v.yearsLaterNewYearsDate now n
      = DateTime.isoDateStringOfCivil ((localCivil now).1 + n) 1 1 ∧
    ∀ w : DateTime, v.yearsLaterNewYearsDate now n = w.yearsLaterNewYearsDate now n := by
  refine ⟨?_, fun w => rfl⟩
  unfold DateTime.yearsLaterNewYearsDate
  simp only [DateTime.dayjsFormatYMD]
  rw [localCivil_startOfYear (DateTime.dayjsAddYears now n)]
  dsimp only
  rw [localCivil_addYears now n]

example :
    DateTime.yearsLaterNewYearsDate ⟨some 0⟩ 1709255700000 3 = "2027-01-01" := by decide

theorem bind_cons_expand {α β : Type} (a : α) (l : List α) (f : α → List β) :
    (a :: l).bind f = f a ++ l.bind f := rfl

theorem bind_nil_expand {α β : Type} (f : α → List β) : ([] : List α).bind f = [] := rfl

theorem bind_pair_congr {α : Type} {f g f2 g2 : Nat → α} (l : List Nat)
    (hf : ∀ i ∈ l, f i = f2 i) (hg : ∀ i ∈ l, g i = g2 i) :
    (l.bind fun i => [f i, g i]) = l.bind fun i => [f2 i, g2 i] := by
  induction l with
  | nil => rfl
  | cons a l ih =>
    rw [bind_cons_expand, bind_cons_expand]
    rw [hf a (List.mem_cons_self a l), hg a (List.mem_cons_self a l)]
    rw [ih (fun i hi => hf i (List.mem_cons_of_mem a hi))
        (fun i hi => hg i (List.mem_cons_of_mem a hi))]

theorem slot_days_hms (t i : Int) (h1 : 0 ≤ i) (h2 : i ≤ 23) :
    localDays (DateTime.jsSetHMS0 t i) = localDays t
      ∧ localHour (DateTime.jsSetHMS0 t i) = i
      ∧ localMinute (DateTime.jsSetHMS0 t i) = 0
      ∧ localSecond (DateTime.jsSetHMS0 t i) = 0 := by
  unfold DateTime.jsSetHMS0 localHour localMinute localSecond localDays localTod
    msPerDay msPerHour msPerMinute tokyoOffsetMs at *
  omega

theorem slot_days_hms30 (t i : Int) (h1 : 0 ≤ i) (h2 : i ≤ 23) :
    localDays (DateTime.jsSetHMS0 t i + 30 * msPerMinute) = localDays t
      ∧ localHour (DateTime.jsSetHMS0 t i + 30 * msPerMinute) = i
      ∧ localMinute (DateTime.jsSetHMS0 t i + 30 * msPerMinute) = 30
      ∧ localSecond (DateTime.jsSetHMS0 t i + 30 * msPerMinute) = 0 := by
  unfold DateTime.jsSetHMS0 localHour localMinute localSecond localDays localTod
    msPerDay msPerHour msPerMinute tokyoOffsetMs at *
  omega

theorem slot_format_00 (t i : Int) (h1 : 0 ≤ i) (h2 : i ≤ 23) :
    DateTime.dayjsFormatYMDHMS (some (DateTime.jsSetHMS0 t i))
      = DateTime.dayjsFormatYMD (some t) ++ " " ++ pad2i i ++ ":" ++ pad2i 0 ++ ":" ++ pad2i 0 := by
  obtain ⟨hd, hh, hm, hs⟩ := slot_days_hms t i h1 h2
  simp only [DateTime.dayjsFormatYMDHMS, DateTime.dayjsFormatYMD, localCivil, hd, hh, hm, hs]

theorem slot_format_30 (t i : Int) (h1 : 0 ≤ i) (h2 : i ≤ 23) :
    DateTime.dayjsFormatYMDHMS (some (DateTime.jsSetHMS0 t i + 30 * msPerMinute))
      = DateTime.dayjsFormatYMD (some t) ++ " " ++ pad2i i ++ ":" ++ pad2i 30 ++ ":" ++ pad2i 0 := by
  obtain ⟨hd, hh, hm, hs⟩ := slot_days_hms30 t i h1 h2
  simp only [DateTime.dayjsFormatYMDHMS, DateTime.dayjsFormatYMD, localCivil, hd, hh, hm, hs]

/-- C4: for a parseable date string (normalized instant `t`), the slot
generator returns exactly the 24 stamps `HH:00:00`, `HH:30:00` for each
hour 8..19, in that order, each prefixed by `t`'s `YYYY-MM-DD` date, and
the instants the stamps denote are strictly ascending. -/
theorem C4_slots (v : DateTime) (now : Int) (s : String) (t : Int)
    (h : parseDate (DateTime.formatSafariSupport s) = some t) :
    DateTime.«美容室入場時間» v now s
      = (List.range' 8 12).bind (fun i =>
          [DateTime.dayjsFormatYMD (some t) ++ " " ++ pad2i (i : Int) ++ ":" ++ pad2i 0
             ++ ":" ++ pad2i 0,
           DateTime.dayjsFormatYMD (some t) ++ " " ++ pad2i (i : Int) ++ ":" ++ pad2i 30
             ++ ":" ++ pad2i 0])
    ∧ (DateTime.«美容室入場時間» v now s).length = 24
    ∧ List.Chain' (· < ·) ((List.range' 8 12).bind (fun i =>
        [DateTime.jsSetHMS0 t (i : Int), DateTime.jsSetHMS0 t (i : Int) + 30 * msPerMinute])) := by
  have hrange : List.range' 8 12 = [8, 9, 10, 11, 12, 13, 14, 15, 16, 17, 18, 19] := rfl
  have hmain : DateTime.«美容室入場時間» v now s
      = (List.range' 8 12).bind (fun i =>
          [DateTime.dayjsFormatYMD (some t) ++ " " ++ pad2i (i : Int) ++ ":" ++ pad2i 0
             ++ ":" ++ pad2i 0,
           DateTime.dayjsFormatYMD (some t) ++ " " ++ pad2i (i : Int) ++ ":" ++ pad2i 30
             ++ ":" ++ pad2i 0]) := by
    unfold DateTime.«美容室入場時間»
    rw [construct_str_of_parse now s t h]
    refine bind_pair_congr (List.range' 8 12) ?_ ?_
    · intro i hi
      rw [hrange] at hi
      simp only [List.mem_cons, List.not_mem_nil, or_false] at hi
      exact slot_format_00 t (i : Int) (by omega) (by omega)
    · intro i hi
      rw [hrange] at hi
      simp only [List.mem_cons, List.not_mem_nil, or_false] at hi
      exact slot_format_30 t (i : Int) (by omega) (by omega)
  refine ⟨hmain, ?_, ?_⟩
  · rw [hmain, hrange]
    rfl
  · rw [hrange]
    simp only [bind_cons_expand, bind_nil_expand, List.cons_append, List.nil_append,
      List.append_nil, List.chain'_cons, List.chain'_singleton, and_true]
    unfold DateTime.jsSetHMS0 localDays localTod msPerDay msPerHour msPerMinute tokyoOffsetMs
    omega

theorem C4_witness :
    (DateTime.«美容室入場時間» ⟨some 0⟩ 0 "2024-03-01 10:15:00").length = 24
    ∧ (DateTime.«美容室入場時間» ⟨some 0⟩ 0 "2024-03-01 10:15:00").get? 0
        = some "2024-03-01 08:00:00"
    ∧ (DateTime.«美容室入場時間» ⟨some 0⟩ 0 "2024-03-01 10:15:00").get? 1
        = some "2024-03-01 08:30:00"
    ∧ (DateTime.«美容室入場時間» ⟨some 0⟩ 0 "2024-03-01 10:15:00").get? 23
        = some "2024-03-01 19:30:00" := by
  have h := C4_slots ⟨some 0⟩ 0 "2024-03-01 10:15:00" 1709255700000 (by decide)
  refine ⟨h.2.1, ?_, ?_, ?_⟩ <;> (rw [h.1]; decide)

theorem string_data_append (s t : String) : (s ++ t).data = s.data ++ t.data := by
  obtain ⟨ls⟩ := s
  obtain ⟨lt⟩ := t
  rfl

theorem data_slash : ("/" : String).data = ['/'] := rfl

theorem data_colon : (":" : String).data = [':'] := rfl

theorem data_space : (" " : String).data = [' '] := rfl

theorem data_zero : ("0" : String).data = ['0'] := rfl

theorem data_intToString (i : Int) : (intToString i).data = intDigits i := rfl

theorem data_mk (l : List Char) : (String.mk l).data = l := rfl

theorem digitChar_isDigit (m : Nat) (h : m < 10) : (Nat.digitChar m).isDigit = true := by
  interval_cases m <;> decide

theorem natDigitsAux_digits (fuel n : Nat) :
    ∀ c ∈ natDigitsAux fuel n, c.isDigit = true := by
  induction fuel generalizing n with
  | zero => intro c hc; simp [natDigitsAux] at hc
  | succ fuel ih =>
    intro c hc
    unfold natDigitsAux at hc
    split at hc
    case isTrue h =>
      simp only [List.mem_singleton] at hc
      subst hc
      exact digitChar_isDigit n h
    case isFalse h =>
      rw [List.mem_append] at hc
      rcases hc with hc | hc
      · exact ih (n / 10) c hc
      · simp only [List.mem_singleton] at hc
        subst hc
        exact digitChar_isDigit (n % 10) (Nat.mod_lt n (by omega))

theorem natDigits_digits (n : Nat) : ∀ c ∈ natDigits n, c.isDigit = true :=
  natDigitsAux_digits (n + 1) n

theorem intDigits_chars (i : Int) : ∀ c ∈ intDigits i, c.isDigit = true ∨ c = '-' := by
  unfold intDigits
  split
  · intro c hc
    rcases List.mem_cons.mp hc with hc | hc
    · exact Or.inr hc
    · exact Or.inl (natDigits_digits _ c hc)
  · intro c hc
    exact Or.inl (natDigits_digits _ c hc)

theorem pad2i_chars (i : Int) : ∀ c ∈ (pad2i i).data, c.isDigit = true ∨ c = '-' := by
  unfold pad2i
  split
  · intro c hc
    rw [string_data_append, data_zero, data_intToString] at hc
    rcases List.mem_append.mp hc with hc | hc
    · simp only [List.mem_singleton] at hc
      subst hc
      exact Or.inl (by decide)
    · exact intDigits_chars i c hc
  · intro c hc
    rw [data_intToString] at hc
    exact intDigits_chars i c hc

theorem ne_space_of_safe (c : Char)
    (h : c.isDigit = true ∨ c = '-' ∨ c = '/' ∨ c = ':') : (c == ' ') = false := by
  cases hb : c == ' '
  · rfl
  · rw [beq_iff_eq] at hb
    subst hb
    rcases h with h | h | h | h
    · exact absurd h (by decide)
    · exact absurd h (by decide)
    · exact absurd h (by decide)
    · exact absurd h (by decide)

theorem splitP_no_sep (p : Char → Bool) (a : List Char) (ha : ∀ c ∈ a, p c = false) :
    splitP p a = [a] := by
  induction a with
  | nil => rfl
  | cons c cs ih =>
    unfold splitP
    rw [ih (fun x hx => ha x (List.mem_cons_of_mem c hx))]
    rw [ha c (List.mem_cons_self c cs)]
    rfl

theorem splitP_two_parts (p : Char → Bool) (A B : List Char) (sep : Char)
    (hA : ∀ c ∈ A, p c = false) (hsep : p sep = true) (hB : ∀ c ∈ B, p c = false) :
    splitP p (A ++ sep :: B) = [A, B] := by
  induction A with
  | nil =>
    show splitP p (sep :: B) = [[], B]
    unfold splitP
    rw [splitP_no_sep p B hB, hsep]
    rfl
  | cons c A ih =>
    show splitP p (c :: (A ++ sep :: B)) = [c :: A, B]
    unfold splitP
    rw [ih (fun x hx => hA x (List.mem_cons_of_mem c hx))]
    rw [hA c (List.mem_cons_self c A)]
    rfl

theorem hmsPattern_parts (l : List Char) (h : DateTime.hmsPattern l = true) :
    ∃ x y z, splitP (fun c => c == ':') l = [x, y, z] := by
  unfold DateTime.hmsPattern at h
  split at h
  next x y z heq => exact ⟨x, y, z, heq⟩
  next => exact absurd h (by simp)

theorem toOnlyTime_ok (v : DateTime) : ∃ r, v.toOnlyTime = Except.ok r := by
  obtain ⟨d⟩ := v
  cases d with
  | none => exact ⟨"Date", rfl⟩
  | some t =>
    have hA : ∀ c ∈ intDigits (localCivil t).1 ++ '/' ::
        (intDigits (localCivil t).2.1 ++ '/' :: intDigits (localCivil t).2.2),
        (fun c => c == ' ') c = false := by
      intro c hc
      refine ne_space_of_safe c ?_
      rcases List.mem_append.mp hc with hc | hc
      · exact (intDigits_chars _ c hc).imp id Or.inl
      · rcases List.mem_cons.mp hc with hc | hc
        · exact Or.inr (Or.inr (Or.inl hc))
        · rcases List.mem_append.mp hc with hc | hc
          · exact (intDigits_chars _ c hc).imp id Or.inl
          · rcases List.mem_cons.mp hc with hc | hc
            · exact Or.inr (Or.inr (Or.inl hc))
            · exact (intDigits_chars _ c hc).imp id Or.inl
    have hB : ∀ c ∈ intDigits (localHour t) ++ ':' ::
        ((pad2i (localMinute t)).data ++ ':' :: (pad2i (localSecond t)).data),
        (fun c => c == ' ') c = false := by
      intro c hc
      refine ne_space_of_safe c ?_
      rcases List.mem_append.mp hc with hc | hc
      · exact (intDigits_chars _ c hc).imp id Or.inl
      · rcases List.mem_cons.mp hc with hc | hc
        · exact Or.inr (Or.inr (Or.inr hc))
        · rcases List.mem_append.mp hc with hc | hc
          · exact (pad2i_chars _ c hc).imp id Or.inl
          · rcases List.mem_cons.mp hc with hc | hc
            · exact Or.inr (Or.inr (Or.inr hc))
            · exact (pad2i_chars _ c hc).imp id Or.inl
    have hshape : (DateTime.jpLocaleString (some t)).data
        = (intDigits (localCivil t).1 ++ '/' ::
            (intDigits (localCivil t).2.1 ++ '/' :: intDigits (localCivil t).2.2))
          ++ ' ' :: (intDigits (localHour t) ++ ':' ::
            ((pad2i (localMinute t)).data ++ ':' :: (pad2i (localSecond t)).data)) := by
      simp [DateTime.jpLocaleString, string_data_append, data_slash, data_colon, data_space,
        data_intToString, List.append_assoc]
    have hsplit := splitP_two_parts (fun c => c == ' ') _ _ ' ' hA rfl hB
    show ∃ r, DateTime.toOnlyTime ⟨some t⟩ = Except.ok r
    unfold DateTime.toOnlyTime
    rw [hshape, hsplit]
    simp only [List.map_cons, List.map_nil, List.get?, data_mk]
    cases hp : DateTime.hmsPattern (intDigits (localHour t) ++ ':' ::
        ((pad2i (localMinute t)).data ++ ':' :: (pad2i (localSecond t)).data)) with
    | false => exact ⟨_, rfl⟩
    | true =>
      obtain ⟨x, y, z, hxyz⟩ := hmsPattern_parts _ hp
      rw [hxyz]
      exact ⟨_, rfl⟩

/-- C9: no operation raises an error.  All operations of the model are
total Lean functions by construction; the two places where the JS source
could conceivably fail are covered explicitly: the array-element access in
`toOnlyTime` (modelled with `Except`) always returns `ok`, the slot
generator returns its 24 entries for every input string (parseable or
not), and `toJpStringWithWeek` returns the `ー` placeholder rather than
failing when the weekday index is unresolvable (NaN date). -/
theorem C9_no_errors (v : DateTime) (now : Int) (s : String) :
    (∃ r, v.toOnlyTime = Except.ok r)
    ∧ (DateTime.«美容室入場時間» v now s).length = 24
    ∧ (v.date = none → v.toJpStringWithWeek = "ー") := by
  refine ⟨toOnlyTime_ok v, ?_, ?_⟩
  · unfold DateTime.«美容室入場時間»
    cases hb : (DateTime.construct now (DateInput.str s)).date <;> rfl
  · intro h
    obtain ⟨d⟩ := v
    obtain rfl : d = none := h
    rfl

theorem C9_witness :
    DateTime.toJpStringWithWeek ⟨none⟩ = "ー"
    ∧ ∃ r, DateTime.toOnlyTime ⟨none⟩ = Except.ok r :=
  ⟨(C9_no_errors ⟨none⟩ 0 "x").2.2 rfl, (C9_no_errors ⟨none⟩ 0 "x").1⟩
